import Mathlib

/-!
Verification of the viseme lip-sync engine of the Avatar-Talk frontend
(`src/frontend/src/modules/chatbot/ChatModule.jsx`).

Numbers are modelled as rationals.  A JavaScript object field that may be
absent is modelled as an `Option ℚ`; the JS idiom `x || 0` becomes
`Option.getD` (a present `0` is falsy in JS and also yields `0`, so the two
agree), and `a.end || e` keeps the `end` field only when it is present and
nonzero.  The one place the source adds a possibly-`undefined` field without
defaulting (`lastViseme.start + (lastViseme.duration || 0)`) is modelled with
an `Option ℚ` result: `none` stands for the JS `NaN`, and every `<`
comparison against `NaN` is false.
-/

namespace AvatarTalk

/-- One timed viseme event as delivered by the backend.  All four numeric
fields may be absent; `viseme` is the mouth-shape category (0–7). -/
structure VisemeEvent where
  viseme : Option ℚ
  start : Option ℚ
  duration : Option ℚ
  «end» : Option ℚ
deriving DecidableEq

instance : Inhabited VisemeEvent := ⟨⟨none, none, none, none⟩⟩

/-- `viseme.start || 0` -/
def evalStart (v : VisemeEvent) : ℚ := v.start.getD 0

/-- `viseme.duration || 0` -/
def evalDuration (v : VisemeEvent) : ℚ := v.duration.getD 0

/-- `viseme.viseme || 0` -/
def evalCat (v : VisemeEvent) : ℚ := v.viseme.getD 0

/-- `viseme.end || (start + (viseme.duration || 0))` where `start` was already
defaulted to `0`: the explicit `end` field wins when present and nonzero. -/
def evalEnd (v : VisemeEvent) : ℚ :=
  match v.«end» with
  | some e => if e = 0 then evalStart v + evalDuration v else e
  | none => evalStart v + evalDuration v

/-! ### getVisemeAtTime (ChatModule.jsx lines 485–527) -/

/-- The linear branch of `getVisemeAtTime` (sequences shorter than 50):
return the category of the first event whose `[start, end)` interval contains
`audioTime`, or `none` when the scan falls through. -/
def linScan (audioTime : ℚ) : List VisemeEvent → Option ℚ
  | [] => none
  | v :: rest =>
    if evalStart v ≤ audioTime ∧ audioTime < evalEnd v then some (evalCat v)
    else linScan audioTime rest

/-- The `while (left <= right)` binary-search loop of `getVisemeAtTime`.
The loop body shrinks `right - left` by at least one per iteration, so a fuel
of `length + 1` is enough to reproduce the loop exactly. -/
def binSearchGo (audioTime : ℚ) (seq : List VisemeEvent) :
    ℕ → ℤ → ℤ → Option ℚ
  | 0, _, _ => none
  | fuel + 1, left, right =>
    if left ≤ right then
      let mid := (left + right) / 2
      let v := seq.getD mid.toNat default
      if evalStart v ≤ audioTime ∧ audioTime < evalEnd v then some (evalCat v)
      else if audioTime < evalStart v then
        binSearchGo audioTime seq fuel left (mid - 1)
      else
        binSearchGo audioTime seq fuel (mid + 1) right
    else none

/-- The binary-search branch of `getVisemeAtTime` (sequences of 50 or more),
started with `left = 0`, `right = length - 1`. -/
def binSearch (audioTime : ℚ) (seq : List VisemeEvent) : Option ℚ :=
  binSearchGo audioTime seq (seq.length + 1) 0 ((seq.length : ℤ) - 1)

/-- The past-the-loops fallback of `getVisemeAtTime`:
`lastEnd = lastViseme.end || (lastViseme.start + (lastViseme.duration || 0))`;
note that `lastViseme.start` is NOT defaulted here, so a missing `start`
makes `lastEnd` NaN (modelled as `none`) and the comparison
`audioTime < lastEnd` false. -/
def pastEndCheck (audioTime : ℚ) (lastViseme : VisemeEvent) : ℚ :=
  let lastEnd : Option ℚ :=
    match lastViseme.«end» with
    | some e =>
      if e = 0 then lastViseme.start.map (· + evalDuration lastViseme) else some e
    | none => lastViseme.start.map (· + evalDuration lastViseme)
  match lastEnd with
  | some e => if audioTime < e then evalCat lastViseme else 0
  | none => 0

/-- `getVisemeAtTime(audioTime, visemeSequence)`: empty sequence → silence 0;
linear scan below 50 events, binary search at 50 or more; then the
last-event fallback. -/
def getVisemeAtTime (audioTime : ℚ) (visemeSequence : List VisemeEvent) : ℚ :=
  if visemeSequence.length = 0 then 0
  else
    let scanned :=
      if visemeSequence.length < 50 then linScan audioTime visemeSequence
      else binSearch audioTime visemeSequence
    match scanned with
    | some c => c
    | none => pastEndCheck audioTime (visemeSequence.getLastD default)

/-! ### FrameInterpolator (ChatModule.jsx lines 532–593) -/

/-- The `FrameInterpolator` instance state. -/
structure FrameInterpolator where
  transitionDuration : ℚ
  currentFrame : ℚ
  targetFrame : ℚ
  transitionStartTime : ℚ
  isTransitioning : Bool
deriving DecidableEq

/-- `new FrameInterpolator(transitionDuration = 0.05)` -/
def FrameInterpolator.init (transitionDuration : ℚ := 0.05) : FrameInterpolator :=
  ⟨transitionDuration, 1, 1, 0, false⟩

/-- `setTargetFrame(frame, currentTime)` -/
def FrameInterpolator.setTargetFrame (frame currentTime : ℚ)
    (s : FrameInterpolator) : FrameInterpolator :=
  if frame ≠ s.targetFrame then
    { s with currentFrame := s.targetFrame, targetFrame := frame,
             transitionStartTime := currentTime, isTransitioning := true }
  else s

/-- The ease-in-out curve of `getInterpolatedFrame`:
`2p²` below `0.5`, `1 - (-2p+2)²/2` from `0.5` on. -/
def easeInOut (progress : ℚ) : ℚ :=
  if progress < 1/2 then 2 * progress * progress
  else 1 - (-2 * progress + 2)^2 / 2

/-- `getInterpolatedFrame(currentTime)`: returns the displayed frame and the
possibly-updated interpolator state (the method mutates `this` when a
transition completes). -/
def FrameInterpolator.getInterpolatedFrame (currentTime : ℚ)
    (s : FrameInterpolator) : ℚ × FrameInterpolator :=
  if !s.isTransitioning then (s.targetFrame, s)
  else
    let elapsed := currentTime - s.transitionStartTime
    let progress := min (elapsed / s.transitionDuration) 1
    if 1 ≤ progress then
      (s.targetFrame, { s with isTransitioning := false, currentFrame := s.targetFrame })
    else
      (((round (s.currentFrame + (s.targetFrame - s.currentFrame) * easeInOut progress) : ℤ) : ℚ), s)

/-- `reset()` -/
def FrameInterpolator.reset (s : FrameInterpolator) : FrameInterpolator :=
  { s with isTransitioning := false, currentFrame := s.targetFrame,
           transitionStartTime := 0 }

/-! ### getFrameForViseme (ChatModule.jsx lines 604–637) -/

/-- A JS object used as a map from viseme category to candidate frame list,
modelled as an association list. -/
def FrameMap := List (ℚ × List ℚ)

/-- `visemeFrameMap[k]`: `none` models an absent key (JS `undefined`). -/
def FrameMap.get (m : FrameMap) (k : ℚ) : Option (List ℚ) :=
  (List.find? (fun p => decide (p.1 = k)) m).map Prod.snd

/-- `visemeFrameMap[visemeIndex] || visemeFrameMap[0] || [1]`.  A present
array is always truthy in JS — even when empty — so only an absent key falls
through to the next alternative. -/
def resolveCandidates (visemeIndex : ℚ) (visemeFrameMap : FrameMap) : List ℚ :=
  match visemeFrameMap.get visemeIndex with
  | some l => l
  | none =>
    match visemeFrameMap.get 0 with
    | some l => l
    | none => [1]

/-- `getFrameForViseme(visemeIndex, visemeSequence, audioTime, visemeFrameMap)`.
`timeInViseme` is nonnegative whenever the `find` succeeds, so the JS `%` on
its floor coincides with `Nat` arithmetic via `Int.toNat`. -/
def getFrameForViseme (visemeIndex : ℚ) (visemeSequence : List VisemeEvent)
    (audioTime : ℚ) (visemeFrameMap : FrameMap) : ℚ :=
  let candidateFrames := resolveCandidates visemeIndex visemeFrameMap
  if candidateFrames.length = 0 then 1
  else
    let visemeData := visemeSequence.find? (fun v =>
      decide (evalStart v ≤ audioTime ∧ audioTime < evalEnd v ∧ v.viseme = some visemeIndex))
    match visemeData with
    | some v =>
      match v.duration with
      | some d =>
        if d ≠ 0 then
          let timeInViseme := audioTime - evalStart v
          let cycleRate : ℚ := 8
          let frameIndex := (⌊timeInViseme * cycleRate⌋).toNat % candidateFrames.length
          candidateFrames.getD frameIndex 1
        else candidateFrames.getD 0 1
      | none => candidateFrames.getD 0 1
    | none => candidateFrames.getD 0 1

/-! ### AvatarModule (ChatModule.jsx lines 646–909) -/

/-- `scaleVisemes(actualDuration)` closed over `visemeData` and
`estimatedDuration` (lines 748–761): rescales every `start`/`duration` by
`actualDuration / estimatedDuration` when both durations are positive, and
leaves the sequence untouched otherwise.  The spread `{...viseme}` copies all
other fields unchanged. -/
def scaleVisemes (visemeData : List VisemeEvent)
    (estimatedDuration actualDuration : ℚ) : List VisemeEvent :=
  if 0 < estimatedDuration ∧ 0 < actualDuration then
    let durationScale := actualDuration / estimatedDuration
    visemeData.map (fun viseme =>
      { viseme with
        start := some (viseme.start.getD 0 * durationScale),
        duration := some (viseme.duration.getD 0 * durationScale) })
  else visemeData

/-- The containment scan of the `animate` loop (lines 793–805): first event
with `start <= elapsed < start + duration`; the `end` field is ignored here. -/
def animateScan (elapsed : ℚ) : List VisemeEvent → Option ℚ
  | [] => none
  | viseme :: rest =>
    let visemeStart := evalStart viseme
    let visemeEnd := visemeStart + evalDuration viseme
    if visemeStart ≤ elapsed ∧ elapsed < visemeEnd then some (evalCat viseme)
    else animateScan elapsed rest

/-- The closest-viseme loop of the `animate` fallback (lines 810–822):
fold keeping the first event of strictly minimal `|elapsed - start|`. -/
def closestLoop (elapsed : ℚ) :
    VisemeEvent → ℚ → List VisemeEvent → VisemeEvent × ℚ
  | closestViseme, minDistance, [] => (closestViseme, minDistance)
  | closestViseme, minDistance, viseme :: rest =>
    let distance := |elapsed - evalStart viseme|
    if distance < minDistance then closestLoop elapsed viseme distance rest
    else closestLoop elapsed closestViseme minDistance rest

/-- The viseme category published by one `animate` tick (lines 789–829):
containment scan, then nearest-start fallback accepted within 0.2 s,
otherwise silence 0. -/
def animateViseme (elapsed : ℚ) (scaledVisemes : List VisemeEvent) : ℚ :=
  match animateScan elapsed scaledVisemes with
  | some c => c
  | none =>
    match scaledVisemes with
    | [] => 0
    | v0 :: rest =>
      let (closestViseme, minDistance) :=
        closestLoop elapsed v0 |elapsed - evalStart v0| rest
      if minDistance < 0.2 then evalCat closestViseme else 0

/-- The audio element owned by the module, reduced to the pieces the effect
touches synchronously. -/
structure AudioElement where
  src : String
  paused : Bool
  currentTime : ℚ
deriving DecidableEq

/-- One utterance request (`currentSpeech`). -/
structure Speech where
  audioData : Option String
  visemeData : Option (List VisemeEvent)
deriving DecidableEq

/-- The ambient playback state of `AvatarModule`: the published React state
plus the three refs. -/
structure AvatarState where
  visemeIndex : ℚ
  progress : ℚ
  audioTime : ℚ
  audioDuration : ℚ
  audioRef : Option AudioElement
  animationRef : Option ℕ
  isPlayingRef : Bool
  isSpeaking : Bool
deriving DecidableEq

/-- The synchronous body of the `useEffect` on `currentSpeech`
(lines 657–696): no speech or a set playing guard or missing audio data
leaves the state untouched; otherwise the prior audio element and animation
handle are torn down and a fresh audio element is installed (all further
work happens in later callbacks). -/
def speechEffect (currentSpeech : Option Speech) (s : AvatarState) : AvatarState :=
  match currentSpeech with
  | none => s
  | some speech =>
    if s.isPlayingRef then s
    else
      match speech.audioData with
      | none => s
      | some audioData =>
        { s with
          audioRef := some { src := audioData, paused := true, currentTime := 0 },
          animationRef := none }

/-! ### Spec-side definitions (used only to compare against the code) -/

/-- Modelled from the spec: "missing fields default to 0" — the claimed
equivalent event with every missing numeric field replaced by `0`. -/
def zeroDefault (v : VisemeEvent) : VisemeEvent :=
  ⟨some (v.viseme.getD 0), some (v.start.getD 0), some (v.duration.getD 0),
   some (v.«end».getD 0)⟩

/-- Modelled from the spec: the nearest-neighbor fallback as the claim words
it — "the category of the event whose start is closest to t is used if that
distance is below 0.2 seconds, and silence (0) otherwise" (ties resolved to
the earliest event). -/
def specNearestCat (t : ℚ) (seq : List VisemeEvent) : ℚ :=
  match seq with
  | [] => 0
  | v0 :: rest =>
    let m := rest.foldl (fun acc v => min acc |t - evalStart v|) |t - evalStart v0|
    if m < 0.2 then
      match (v0 :: rest).find? (fun v => decide (|t - evalStart v| = m)) with
      | some v => evalCat v
      | none => 0
    else 0

/-- Modelled from the spec: "the viseme category the loop publishes equals
the result of VisemeLookup's lookup (getVisemeAtTime) on that sequence at t,
extended with a nearest-neighbor fallback" — lookup where some interval
contains `t`, the nearest-start fallback otherwise. -/
def specLoopViseme (t : ℚ) (seq : List VisemeEvent) : ℚ :=
  if seq.any (fun v => decide (evalStart v ≤ t ∧ t < evalEnd v)) then
    getVisemeAtTime t seq
  else specNearestCat t seq

/-- A concrete 50-event sequence, sorted by non-decreasing start, whose
first event `[0, 100)` overlaps all the later one-second events
`[2i, 2i+1)`. -/
def overlapSeq : List VisemeEvent :=
  [⟨some 1, some 0, some 100, none⟩, ⟨some 2, some 2, some 1, none⟩, ⟨some 2, some 4, some 1, none⟩, ⟨some 2, some 6, some 1, none⟩,
    ⟨some 2, some 8, some 1, none⟩, ⟨some 2, some 10, some 1, none⟩, ⟨some 2, some 12, some 1, none⟩, ⟨some 2, some 14, some 1, none⟩,
    ⟨some 2, some 16, some 1, none⟩, ⟨some 2, some 18, some 1, none⟩, ⟨some 2, some 20, some 1, none⟩, ⟨some 2, some 22, some 1, none⟩,
    ⟨some 2, some 24, some 1, none⟩, ⟨some 2, some 26, some 1, none⟩, ⟨some 2, some 28, some 1, none⟩, ⟨some 2, some 30, some 1, none⟩,
    ⟨some 2, some 32, some 1, none⟩, ⟨some 2, some 34, some 1, none⟩, ⟨some 2, some 36, some 1, none⟩, ⟨some 2, some 38, some 1, none⟩,
    ⟨some 2, some 40, some 1, none⟩, ⟨some 2, some 42, some 1, none⟩, ⟨some 2, some 44, some 1, none⟩, ⟨some 2, some 46, some 1, none⟩,
    ⟨some 2, some 48, some 1, none⟩, ⟨some 2, some 50, some 1, none⟩, ⟨some 2, some 52, some 1, none⟩, ⟨some 2, some 54, some 1, none⟩,
    ⟨some 2, some 56, some 1, none⟩, ⟨some 2, some 58, some 1, none⟩, ⟨some 2, some 60, some 1, none⟩, ⟨some 2, some 62, some 1, none⟩,
    ⟨some 2, some 64, some 1, none⟩, ⟨some 2, some 66, some 1, none⟩, ⟨some 2, some 68, some 1, none⟩, ⟨some 2, some 70, some 1, none⟩,
    ⟨some 2, some 72, some 1, none⟩, ⟨some 2, some 74, some 1, none⟩, ⟨some 2, some 76, some 1, none⟩, ⟨some 2, some 78, some 1, none⟩,
    ⟨some 2, some 80, some 1, none⟩, ⟨some 2, some 82, some 1, none⟩, ⟨some 2, some 84, some 1, none⟩, ⟨some 2, some 86, some 1, none⟩,
    ⟨some 2, some 88, some 1, none⟩, ⟨some 2, some 90, some 1, none⟩, ⟨some 2, some 92, some 1, none⟩, ⟨some 2, some 94, some 1, none⟩,
    ⟨some 2, some 96, some 1, none⟩, ⟨some 2, some 98, some 1, none⟩]

/-! ## Basic facts about the embedding -/

theorem getD_eq_of_lt {α : Type} [Inhabited α] (l : List α) (i : ℕ) (h : i < l.length) :
    l.getD i default = l[i] := by
  rw [List.getD_eq_getElem?_getD, List.getElem?_eq_getElem h, Option.getD_some]

theorem getD_map_zeroDefault (l : List VisemeEvent) (i : ℕ) (h : i < l.length) :
    (l.map zeroDefault).getD i default = zeroDefault (l.getD i default) := by
  rw [getD_eq_of_lt _ _ (by simpa using h), getD_eq_of_lt _ _ h, List.getElem_map]

/-! ## C3: duration rescaling -/

/-- C3: `scaleVisemes` is the identity when `estimatedDuration <= 0` or
`actualDuration <= 0`; otherwise it keeps the length and multiplies every
present `start` and `duration` by `actualDuration / estimatedDuration`
(the original sequence, being a value, is untouched). -/
theorem scaleVisemes_spec (seq : List VisemeEvent) (est act : ℚ) :
    ((est ≤ 0 ∨ act ≤ 0) → scaleVisemes seq est act = seq) ∧
    (0 < est → 0 < act →
      (scaleVisemes seq est act).length = seq.length ∧
      ∀ i, i < seq.length → ∀ s d,
        (seq.getD i default).start = some s →
        (seq.getD i default).duration = some d →
        ((scaleVisemes seq est act).getD i default).start = some (s * (act / est)) ∧
        ((scaleVisemes seq est act).getD i default).duration = some (d * (act / est))) := by
  constructor
  · intro h
    unfold scaleVisemes
    rw [if_neg]
    rintro ⟨h1, h2⟩
    rcases h with h | h <;> linarith
  · intro he ha
    unfold scaleVisemes
    rw [if_pos ⟨he, ha⟩]
    refine ⟨by simp, ?_⟩
    intro i hi s d hs hd
    rw [getD_eq_of_lt _ _ hi] at hs hd
    rw [getD_eq_of_lt _ _ (by simpa using hi), List.getElem_map]
    simp [hs, hd]

/-- Witness for C3 at a concrete input. -/
theorem scaleVisemes_spec_witness :
    ((0:ℚ) < 1) ∧ ((0:ℚ) < 2) ∧
    ((scaleVisemes [⟨some 1, some (1/2), some (1/2), none⟩] 1 2).getD 0 default).start
      = some ((1/2 : ℚ) * (2 / 1)) ∧
    ((scaleVisemes [⟨some 1, some (1/2), some (1/2), none⟩] 1 2).getD 0 default).duration
      = some ((1/2 : ℚ) * (2 / 1)) :=
  ⟨by norm_num, by norm_num,
   (((scaleVisemes_spec [⟨some 1, some (1/2), some (1/2), none⟩] 1 2).2
      (by norm_num) (by norm_num)).2 0 (by simp) (1/2) (1/2) rfl rfl).1,
   (((scaleVisemes_spec [⟨some 1, some (1/2), some (1/2), none⟩] 1 2).2
      (by norm_num) (by norm_num)).2 0 (by simp) (1/2) (1/2) rfl rfl).2⟩

/-! ## C10: fields other than start/duration are copied unchanged -/

/-- C10: in the rescaled branch, `viseme` and `end` are copied verbatim and
`start`/`duration` are the zero-defaulted inputs times the scale; in
particular an output event can have `end ≠ start + duration`. -/
theorem scaleVisemes_preserves_other_fields (seq : List VisemeEvent) (est act : ℚ) :
    (0 < est → 0 < act → ∀ i, i < seq.length →
      ((scaleVisemes seq est act).getD i default).viseme = (seq.getD i default).viseme ∧
      ((scaleVisemes seq est act).getD i default).«end» = (seq.getD i default).«end» ∧
      ((scaleVisemes seq est act).getD i default).start
        = some ((seq.getD i default).start.getD 0 * (act / est)) ∧
      ((scaleVisemes seq est act).getD i default).duration
        = some ((seq.getD i default).duration.getD 0 * (act / est))) ∧
    (∃ v : VisemeEvent, ∃ e a : ℚ, 0 < e ∧ 0 < a ∧
      ((scaleVisemes [v] e a).getD 0 default).«end» ≠
        some (((scaleVisemes [v] e a).getD 0 default).start.getD 0 +
              ((scaleVisemes [v] e a).getD 0 default).duration.getD 0)) := by
  constructor
  · intro he ha i hi
    unfold scaleVisemes
    rw [if_pos ⟨he, ha⟩]
    rw [getD_eq_of_lt _ _ (by simpa using hi), List.getElem_map, getD_eq_of_lt _ _ hi]
    exact ⟨rfl, rfl, rfl, rfl⟩
  · refine ⟨⟨some 1, some 0, some 1, some 1⟩, 1, 2, by norm_num, by norm_num, ?_⟩
    norm_num [scaleVisemes]

/-- Witness for C10 at a concrete input. -/
theorem scaleVisemes_preserves_other_fields_witness :
    ((0:ℚ) < 1) ∧ ((0:ℚ) < 2) ∧
    ((scaleVisemes [⟨some 1, some 0, some 1, some 1⟩] 1 2).getD 0 default).«end»
      = ((([⟨some 1, some 0, some 1, some 1⟩] : List VisemeEvent).getD 0 default)).«end» :=
  ⟨by norm_num, by norm_num,
   ((scaleVisemes_preserves_other_fields [⟨some 1, some 0, some 1, some 1⟩] 1 2).1
     (by norm_num) (by norm_num) 0 (by simp)).2.1⟩

/-! ## C6: overlapping utterance requests are rejected without side effects -/

/-- C6: when the playing guard is set, the effect body returns with the
whole playback state — audio element, animation handle, published
viseme/progress/speaking state — unchanged. -/
theorem overlapping_request_rejected (speech : Speech) (s : AvatarState)
    (h : s.isPlayingRef = true) :
    speechEffect (some speech) s = s := by
  simp [speechEffect, h]

/-- Witness for C6 at a concrete input: a playing state with a live audio
element and animation handle survives a second request untouched. -/
theorem overlapping_request_rejected_witness :
    (AvatarState.isPlayingRef ⟨3, 50, 1, 2, some ⟨"utt1", false, 1⟩, some 7, true, true⟩ = true) ∧
    speechEffect (some ⟨some "utt2", some []⟩)
        ⟨3, 50, 1, 2, some ⟨"utt1", false, 1⟩, some 7, true, true⟩
      = ⟨3, 50, 1, 2, some ⟨"utt1", false, 1⟩, some 7, true, true⟩ :=
  ⟨rfl, overlapping_request_rejected ⟨some "utt2", some []⟩
    ⟨3, 50, 1, 2, some ⟨"utt1", false, 1⟩, some 7, true, true⟩ rfl⟩

/-! ## C7: candidate frame resolution -/

/-- C7 (amended): an ABSENT `frameMap` entry falls back to category 0's
list and then to `[1]`; a resolved empty candidate list yields frame 1.  An
empty (but present) entry is truthy in JS, so it does not fall back — it
yields frame 1 through the empty-candidate check. -/
theorem frame_candidates_resolution (idx : ℚ) (fm : FrameMap)
    (seq : List VisemeEvent) (t : ℚ) :
    (fm.get idx = none → resolveCandidates idx fm = (fm.get 0).getD [1]) ∧
    (resolveCandidates idx fm = [] → getFrameForViseme idx seq t fm = 1) ∧
    (fm.get idx = some [] → getFrameForViseme idx seq t fm = 1) := by
  refine ⟨?_, ?_, ?_⟩
  · intro h
    unfold resolveCandidates
    rw [h]
    cases fm.get 0 <;> rfl
  · intro h
    unfold getFrameForViseme
    rw [h]
    rfl
  · intro h
    unfold getFrameForViseme resolveCandidates
    rw [h]
    rfl

/-- Counterexample for C7 as stated: the map has an EMPTY entry for
category 2 and a nonempty entry `[5]` for category 0; the claim predicts a
fallback producing frame 5, but the code returns the default frame 1. -/
theorem empty_candidates_counterexample :
    FrameMap.get [(2, []), (0, [5])] 2 = some [] ∧
    FrameMap.get [(2, []), (0, [5])] 0 = some [5] ∧
    getFrameForViseme 2 [] 0 [(2, []), (0, [5])] = 1 ∧
    getFrameForViseme 0 [] 0 [(2, []), (0, [5])] = 5 := by
  refine ⟨?_, ?_, ?_, ?_⟩ <;>
    norm_num [FrameMap.get, getFrameForViseme, resolveCandidates, List.find?]

/-- Witness for C7 at a concrete input: an absent entry for category 3
falls back to category 0's list. -/
theorem frame_candidates_resolution_witness :
    (FrameMap.get [(0, [4, 6])] 3 = none) ∧
    resolveCandidates 3 [(0, [4, 6])] = (FrameMap.get [(0, [4, 6])] 0).getD [1] :=
  ⟨by norm_num [FrameMap.get, List.find?],
   (frame_candidates_resolution 3 [(0, [4, 6])] [] 0).1
     (by norm_num [FrameMap.get, List.find?])⟩

/-! ## Easing and rounding helpers -/

theorem round_mono_rat {x y : ℚ} (h : x ≤ y) : round x ≤ round y := by
  rw [round_eq, round_eq]
  exact Int.floor_le_floor (by linarith)

theorem easeInOut_bounds {p : ℚ} (h0 : 0 ≤ p) (h1 : p ≤ 1) :
    0 ≤ easeInOut p ∧ easeInOut p ≤ 1 := by
  unfold easeInOut
  split_ifs with h <;> constructor <;> nlinarith

theorem easeInOut_mono {p q : ℚ} (h0 : 0 ≤ p) (hpq : p ≤ q) (h1 : q ≤ 1) :
    easeInOut p ≤ easeInOut q := by
  unfold easeInOut
  split_ifs with hp hq hq
  · nlinarith
  · nlinarith
  · nlinarith
  · nlinarith

theorem round_blend_between (a b : ℤ) (e : ℚ) (h0 : 0 ≤ e) (h1 : e ≤ 1) :
    min (a:ℚ) b ≤ ((round ((a:ℚ) + ((b:ℚ) - a) * e) : ℤ) : ℚ) ∧
    ((round ((a:ℚ) + ((b:ℚ) - a) * e) : ℤ) : ℚ) ≤ max (a:ℚ) b := by
  rcases le_total (a:ℚ) b with hab | hab
  · have hx1 : (a:ℚ) ≤ (a:ℚ) + ((b:ℚ) - a) * e := by nlinarith
    have hx2 : (a:ℚ) + ((b:ℚ) - a) * e ≤ b := by nlinarith
    have l1 := round_mono_rat hx1
    have l2 := round_mono_rat hx2
    rw [round_intCast] at l1 l2
    constructor
    · calc min (a:ℚ) b ≤ (a:ℚ) := min_le_left _ _
        _ ≤ _ := by exact_mod_cast l1
    · calc ((round ((a:ℚ) + ((b:ℚ) - a) * e) : ℤ) : ℚ) ≤ (b:ℚ) := by exact_mod_cast l2
        _ ≤ max (a:ℚ) b := le_max_right _ _
  · have hx1 : (b:ℚ) ≤ (a:ℚ) + ((b:ℚ) - a) * e := by nlinarith
    have hx2 : (a:ℚ) + ((b:ℚ) - a) * e ≤ a := by nlinarith
    have l1 := round_mono_rat hx1
    have l2 := round_mono_rat hx2
    rw [round_intCast] at l1 l2
    constructor
    · calc min (a:ℚ) b ≤ (b:ℚ) := min_le_right _ _
        _ ≤ _ := by exact_mod_cast l1
    · calc ((round ((a:ℚ) + ((b:ℚ) - a) * e) : ℤ) : ℚ) ≤ (a:ℚ) := by exact_mod_cast l2
        _ ≤ max (a:ℚ) b := le_max_left _ _

/-! ## C5: no lower clamp on transition progress -/

/-- C5 (amended): `getInterpolatedFrame` computes
`progress = min(elapsed / transitionDuration, 1)` — clamped above only.
For every `now` at or after `transitionStartTime` (with a positive
transition duration and integer frames) the returned frame lies between
`currentFrame` and `targetFrame` inclusive; the clamp at 0 claimed by the
spec does not exist, so times before `transitionStartTime` can escape that
range (see the counterexample). -/
theorem interpolatedFrame_bounded_from_start (s : FrameInterpolator) (now : ℚ)
    (cur tgt : ℤ) (hcur : s.currentFrame = cur) (htgt : s.targetFrame = tgt)
    (hdur : 0 < s.transitionDuration) (htr : s.isTransitioning = true)
    (hnow : s.transitionStartTime ≤ now) :
    min s.currentFrame s.targetFrame ≤ (FrameInterpolator.getInterpolatedFrame now s).1 ∧
    (FrameInterpolator.getInterpolatedFrame now s).1 ≤ max s.currentFrame s.targetFrame := by
  unfold FrameInterpolator.getInterpolatedFrame
  rw [htr]
  simp only [Bool.not_true, Bool.false_eq_true, if_false]
  set p := min ((now - s.transitionStartTime) / s.transitionDuration) 1 with hp
  have hp0 : 0 ≤ p := by
    apply le_min
    · apply div_nonneg (by linarith) (le_of_lt hdur)
    · norm_num
  have hp1 : p ≤ 1 := min_le_right _ _
  split_ifs with h1
  · constructor
    · exact min_le_right _ _
    · exact le_max_right _ _
  · have he := easeInOut_bounds hp0 hp1
    have := round_blend_between cur tgt (easeInOut p) he.1 he.2
    rw [hcur, htgt]
    simpa using this

/-- Witness for C5 at a concrete input: a transition from frame 1 to
frame 5 sampled after its start stays inside `[1, 5]`. -/
theorem interpolatedFrame_bounded_from_start_witness :
    (FrameInterpolator.isTransitioning ⟨1/20, 1, 5, 1, true⟩ = true) ∧
    ((FrameInterpolator.transitionStartTime ⟨1/20, 1, 5, 1, true⟩ : ℚ) ≤ 2) ∧
    min (1:ℚ) 5 ≤ (FrameInterpolator.getInterpolatedFrame 2 ⟨1/20, 1, 5, 1, true⟩).1 ∧
    (FrameInterpolator.getInterpolatedFrame 2 ⟨1/20, 1, 5, 1, true⟩).1 ≤ max (1:ℚ) 5 :=
  ⟨rfl, by norm_num,
   (interpolatedFrame_bounded_from_start ⟨1/20, 1, 5, 1, true⟩ 2 1 5 rfl rfl
     (by norm_num) rfl (by norm_num)).1,
   (interpolatedFrame_bounded_from_start ⟨1/20, 1, 5, 1, true⟩ 2 1 5 rfl rfl
     (by norm_num) rfl (by norm_num)).2⟩

/-- Counterexample for C5 as stated: sampling the same transition at
`now = 0`, one second BEFORE `transitionStartTime = 1`, yields progress
`-20`, eased value `800`, and frame `3201` — far outside `[1, 5]`.  The code
does not clamp progress below at 0. -/
theorem interpolatedFrame_unclamped_counterexample :
    (FrameInterpolator.getInterpolatedFrame 0 ⟨1/20, 1, 5, 1, true⟩).1 = 3201 ∧
    ¬ ((FrameInterpolator.getInterpolatedFrame 0 ⟨1/20, 1, 5, 1, true⟩).1
        ≤ max ((1:ℚ)) 5) := by
  have hv : (FrameInterpolator.getInterpolatedFrame 0 ⟨1/20, 1, 5, 1, true⟩).1 = 3201 := by
    unfold FrameInterpolator.getInterpolatedFrame
    norm_num [easeInOut]
  refine ⟨hv, ?_⟩
  rw [hv]
  norm_num

/-! ## C4: transition behaviour of the FrameInterpolator -/

theorem setTargetFrame_of_ne (s : FrameInterpolator) (F t0 : ℚ)
    (hne : F ≠ s.targetFrame) :
    FrameInterpolator.setTargetFrame F t0 s
      = ⟨s.transitionDuration, s.targetFrame, F, t0, true⟩ := by
  unfold FrameInterpolator.setTargetFrame
  rw [if_pos hne]

theorem getInterpolatedFrame_transitioning (dur cur tgt t0 u : ℚ) :
    (FrameInterpolator.getInterpolatedFrame u ⟨dur, cur, tgt, t0, true⟩).1 =
      if 1 ≤ min ((u - t0) / dur) 1 then tgt
      else ((round (cur + (tgt - cur) * easeInOut (min ((u - t0) / dur) 1)) : ℤ) : ℚ) := by
  unfold FrameInterpolator.getInterpolatedFrame
  norm_num
  split_ifs <;> rfl

/-- C4: after `setTargetFrame(F, t0)` with `F` different from the current
target (integer frames, positive transition duration), sampling at `t0`
returns the pre-transition frame (the old target), sampling at or beyond
`t0 + transitionDuration` returns exactly `F`, and sampling strictly inside
the window returns an integer between the pre-transition frame and `F`
that approaches `F` monotonically without overshooting. -/
theorem frameInterpolator_transition_spec (s s' : FrameInterpolator) (F t0 : ℚ)
    (tgt Fz : ℤ) (htgt : s.targetFrame = (tgt : ℚ)) (hF : F = (Fz : ℚ))
    (hdur : 0 < s.transitionDuration) (hne : F ≠ s.targetFrame)
    (hs' : s' = FrameInterpolator.setTargetFrame F t0 s) :
    ((FrameInterpolator.getInterpolatedFrame t0 s').1 = s.targetFrame) ∧
    (∀ u, t0 + s.transitionDuration ≤ u →
      (FrameInterpolator.getInterpolatedFrame u s').1 = F) ∧
    (∀ u, t0 < u → u < t0 + s.transitionDuration →
      (∃ k : ℤ, (FrameInterpolator.getInterpolatedFrame u s').1 = (k : ℚ)) ∧
      min s.targetFrame F ≤ (FrameInterpolator.getInterpolatedFrame u s').1 ∧
      (FrameInterpolator.getInterpolatedFrame u s').1 ≤ max s.targetFrame F) ∧
    (∀ u u', t0 < u → u ≤ u' → u' < t0 + s.transitionDuration →
      |F - (FrameInterpolator.getInterpolatedFrame u' s').1| ≤
        |F - (FrameInterpolator.getInterpolatedFrame u s').1|) := by
  rw [setTargetFrame_of_ne s F t0 hne] at hs'
  subst hs'
  have hmid : ∀ u : ℚ, t0 < u → u < t0 + s.transitionDuration →
      (FrameInterpolator.getInterpolatedFrame u
          ⟨s.transitionDuration, s.targetFrame, F, t0, true⟩).1
        = ((round ((tgt : ℚ) + ((Fz : ℚ) - tgt) *
            easeInOut ((u - t0) / s.transitionDuration)) : ℤ) : ℚ) := by
    intro u hu1 hu2
    have hplt : (u - t0) / s.transitionDuration < 1 :=
      (div_lt_one hdur).2 (by linarith)
    have hmin : min ((u - t0) / s.transitionDuration) 1
        = (u - t0) / s.transitionDuration := min_eq_left (le_of_lt hplt)
    rw [getInterpolatedFrame_transitioning, hmin, if_neg (by linarith), htgt, hF]
  have hp01 : ∀ u : ℚ, t0 < u → u < t0 + s.transitionDuration →
      0 ≤ (u - t0) / s.transitionDuration ∧ (u - t0) / s.transitionDuration ≤ 1 := by
    intro u hu1 hu2
    exact ⟨div_nonneg (by linarith) (le_of_lt hdur),
      le_of_lt ((div_lt_one hdur).2 (by linarith))⟩
  refine ⟨?_, ?_, ?_, ?_⟩
  · -- at t0 the pre-transition frame (the old target) is returned
    have h0 : (t0 - t0) / s.transitionDuration = 0 := by
      rw [sub_self, zero_div]
    rw [getInterpolatedFrame_transitioning, h0]
    have hmin : min (0:ℚ) 1 = 0 := by norm_num
    rw [hmin, if_neg (by norm_num)]
    have : easeInOut 0 = 0 := by norm_num [easeInOut]
    rw [this, mul_zero, add_zero, htgt, round_intCast]
  · -- at or beyond t0 + transitionDuration, exactly F
    intro u hu
    have h1 : (1:ℚ) ≤ (u - t0) / s.transitionDuration :=
      (one_le_div hdur).2 (by linarith)
    rw [getInterpolatedFrame_transitioning, min_eq_right h1, if_pos (le_refl 1)]
  · -- strictly inside the window: integer between old target and F
    intro u hu1 hu2
    obtain ⟨hp0, hp1⟩ := hp01 u hu1 hu2
    have he := easeInOut_bounds hp0 hp1
    rw [hmid u hu1 hu2]
    refine ⟨⟨_, rfl⟩, ?_, ?_⟩
    · have := (round_blend_between tgt Fz (easeInOut ((u - t0) / s.transitionDuration))
        he.1 he.2).1
      rw [htgt, hF]
      exact this
    · have := (round_blend_between tgt Fz (easeInOut ((u - t0) / s.transitionDuration))
        he.1 he.2).2
      rw [htgt, hF]
      exact this
  · -- monotone approach toward F
    intro u u' hu1 huu hu2
    have hu1' : t0 < u' := lt_of_lt_of_le hu1 huu
    have hu2u : u < t0 + s.transitionDuration := lt_of_le_of_lt huu hu2
    obtain ⟨hp0, hp1⟩ := hp01 u hu1 hu2u
    obtain ⟨hq0, hq1⟩ := hp01 u' hu1' hu2
    have hpq : (u - t0) / s.transitionDuration ≤ (u' - t0) / s.transitionDuration :=
      (div_le_div_iff_of_pos_right hdur).2 (by linarith)
    rw [hmid u hu1 hu2u, hmid u' hu1' hu2, hF]
    set e := easeInOut ((u - t0) / s.transitionDuration) with hedef
    set e' := easeInOut ((u' - t0) / s.transitionDuration) with hedef'
    have hee : e ≤ e' := easeInOut_mono hp0 hpq hq1
    have heb := easeInOut_bounds hp0 hp1
    have heb' := easeInOut_bounds hq0 hq1
    set x := (tgt : ℚ) + ((Fz : ℚ) - tgt) * e with hxdef
    set x' := (tgt : ℚ) + ((Fz : ℚ) - tgt) * e' with hxdef'
    rcases le_total (tgt : ℚ) (Fz : ℚ) with hab | hab
    · have hx : x ≤ x' := by nlinarith
      have hx' : x' ≤ (Fz : ℚ) := by nlinarith
      have hr1 : ((round x : ℤ) : ℚ) ≤ ((round x' : ℤ) : ℚ) := by
        exact_mod_cast round_mono_rat hx
      have hr2 : ((round x' : ℤ) : ℚ) ≤ (Fz : ℚ) := by
        have h := round_mono_rat hx'
        rw [round_intCast] at h
        exact_mod_cast h
      rw [abs_of_nonneg (by linarith), abs_of_nonneg (by linarith)]
      linarith
    · have hx : x' ≤ x := by nlinarith
      have hx' : (Fz : ℚ) ≤ x' := by nlinarith
      have hr1 : ((round x' : ℤ) : ℚ) ≤ ((round x : ℤ) : ℚ) := by
        exact_mod_cast round_mono_rat hx
      have hr2 : (Fz : ℚ) ≤ ((round x' : ℤ) : ℚ) := by
        have h := round_mono_rat hx'
        rw [round_intCast] at h
        exact_mod_cast h
      rw [abs_of_nonpos (by linarith), abs_of_nonpos (by linarith)]
      linarith

/-- Witness for C4 at a concrete input: transition from frame 1 to frame 5
starting at time 0 with a 1/20 s window. -/
theorem frameInterpolator_transition_spec_witness :
    ((0:ℚ) < 1/20) ∧ ((5:ℚ) ≠ 1) ∧
    (FrameInterpolator.getInterpolatedFrame 0 ⟨1/20, 1, 5, 0, true⟩).1 = 1 ∧
    (FrameInterpolator.getInterpolatedFrame (1/20) ⟨1/20, 1, 5, 0, true⟩).1 = 5 ∧
    (∃ k : ℤ, (FrameInterpolator.getInterpolatedFrame (1/100) ⟨1/20, 1, 5, 0, true⟩).1 = (k : ℚ)) ∧
    min (1:ℚ) 5 ≤ (FrameInterpolator.getInterpolatedFrame (1/100) ⟨1/20, 1, 5, 0, true⟩).1 ∧
    (FrameInterpolator.getInterpolatedFrame (1/100) ⟨1/20, 1, 5, 0, true⟩).1 ≤ max (1:ℚ) 5 ∧
    |(5:ℚ) - (FrameInterpolator.getInterpolatedFrame (2/100) ⟨1/20, 1, 5, 0, true⟩).1| ≤
      |(5:ℚ) - (FrameInterpolator.getInterpolatedFrame (1/100) ⟨1/20, 1, 5, 0, true⟩).1| := by
  have T := frameInterpolator_transition_spec ⟨1/20, 1, 1, 0, false⟩ ⟨1/20, 1, 5, 0, true⟩
    5 0 1 5 (by norm_num) (by norm_num) (by norm_num) (by norm_num)
    (by rw [setTargetFrame_of_ne ⟨1/20, 1, 1, 0, false⟩ 5 0 (by norm_num)])
  have hmid := T.2.2.1 (1/100) (by norm_num) (by norm_num)
  refine ⟨by norm_num, by norm_num, T.1, T.2.1 (1/20) (by norm_num),
    hmid.1, hmid.2.1, hmid.2.2, T.2.2.2 (1/100) (2/100) (by norm_num) (by norm_num) (by norm_num)⟩

/-! ## C9: a truthy `end` field overrides the derived `start + duration` -/

/-- C9: on an event carrying a nonzero `end` field `e`, both
`getVisemeAtTime` and `getFrameForViseme` bound the event's interval by `e`
— the result is independent of the derived `start + duration`.  On a
single-event sequence the lookup returns the category exactly for `t < e`
(the past-end fallback also compares against `e`), and the frame selector
finds (and cycles inside) the event exactly for `start <= t < e`. -/
theorem explicit_end_field_governs (c s d e t idx : ℚ) (fm : FrameMap)
    (he : e ≠ 0) (hd : d ≠ 0) (hcand : resolveCandidates idx fm ≠ []) :
    (getVisemeAtTime t [⟨some c, some s, some d, some e⟩]
      = if t < e then c else 0) ∧
    (getFrameForViseme idx [⟨some idx, some s, some d, some e⟩] t fm
      = if s ≤ t ∧ t < e then
          (resolveCandidates idx fm).getD
            ((⌊(t - s) * 8⌋).toNat % (resolveCandidates idx fm).length) 1
        else (resolveCandidates idx fm).getD 0 1) := by
  have hlen0 : (resolveCandidates idx fm).length ≠ 0 := by
    simpa [List.length_eq_zero] using hcand
  constructor
  · by_cases hc : s ≤ t ∧ t < e
    · have hscan : linScan t [⟨some c, some s, some d, some e⟩] = some c := by
        simp [linScan, evalStart, evalEnd, evalCat, he, hc.1, hc.2]
      simp [getVisemeAtTime, hscan, hc.2]
    · have hscan : linScan t [⟨some c, some s, some d, some e⟩] = none := by
        simp only [linScan, evalStart, evalEnd, evalCat]
        rw [if_neg]
        simpa [he] using hc
      simp [getVisemeAtTime, hscan, pastEndCheck, he, evalCat]
  · by_cases hc : s ≤ t ∧ t < e
    · have hfind : ([⟨some idx, some s, some d, some e⟩] : List VisemeEvent).find?
          (fun v => decide (evalStart v ≤ t ∧ t < evalEnd v ∧ v.viseme = some idx))
          = some ⟨some idx, some s, some d, some e⟩ := by
        simp [List.find?, evalStart, evalEnd, he, hc.1, hc.2]
      simp only [getFrameForViseme, hfind, if_neg hlen0]
      simp [hd, evalStart, hc]
    · have hfind : ([⟨some idx, some s, some d, some e⟩] : List VisemeEvent).find?
          (fun v => decide (evalStart v ≤ t ∧ t < evalEnd v ∧ v.viseme = some idx))
          = none := by
        rw [not_and_or] at hc
        rcases hc with h | h <;> simp [List.find?, evalStart, evalEnd, he, h]
      simp only [getFrameForViseme, hfind, if_neg hlen0]
      simp [hc]

/-- Witness for C9 at a concrete input: event with `start 0`, `duration 1`
but explicit `end 1/2`, sampled at `t = 7/10`: the lookup reports silence
and the selector returns the first candidate — the derived end `1` is
ignored. -/
theorem explicit_end_field_governs_witness :
    ((1:ℚ)/2 ≠ 0) ∧ ((1:ℚ) ≠ 0) ∧
    getVisemeAtTime (7/10) [⟨some 3, some 0, some 1, some (1/2)⟩] = 0 ∧
    getFrameForViseme 3 [⟨some 3, some 0, some 1, some (1/2)⟩] (7/10) [(3, [2, 4])] = 2 := by
  have T := explicit_end_field_governs 3 0 1 (1/2) (7/10) 3 [(3, [2, 4])]
    (by norm_num) (by norm_num) (by simp [resolveCandidates, FrameMap.get, List.find?])
  refine ⟨by norm_num, by norm_num, ?_, ?_⟩
  · rw [T.1]
    norm_num
  · rw [T.2]
    norm_num [resolveCandidates, FrameMap.get, List.find?]

/-! ## C8: behaviour on events with missing fields -/

theorem evalStart_zeroDefault (v : VisemeEvent) : evalStart (zeroDefault v) = evalStart v := rfl

theorem evalDuration_zeroDefault (v : VisemeEvent) :
    evalDuration (zeroDefault v) = evalDuration v := rfl

theorem evalCat_zeroDefault (v : VisemeEvent) : evalCat (zeroDefault v) = evalCat v := rfl

theorem evalEnd_zeroDefault (v : VisemeEvent) : evalEnd (zeroDefault v) = evalEnd v := by
  cases h : v.«end» with
  | none => simp [evalEnd, zeroDefault, h, evalStart, evalDuration]
  | some e =>
    by_cases he : e = 0 <;> simp [evalEnd, zeroDefault, h, he, evalStart, evalDuration]

theorem linScan_map_zeroDefault (t : ℚ) (l : List VisemeEvent) :
    linScan t (l.map zeroDefault) = linScan t l := by
  induction l with
  | nil => rfl
  | cons v rest ih =>
    simp only [List.map_cons, linScan, evalStart_zeroDefault, evalEnd_zeroDefault,
      evalCat_zeroDefault, ih]

theorem binSearchGo_map_zeroDefault (t : ℚ) (seq : List VisemeEvent) :
    ∀ fuel (left right : ℤ), 0 ≤ left → right < (seq.length : ℤ) →
      binSearchGo t (seq.map zeroDefault) fuel left right
        = binSearchGo t seq fuel left right := by
  intro fuel
  induction fuel with
  | zero => intro l r _ _; rfl
  | succ n ih =>
    intro l r h0 hr
    by_cases hlr : l ≤ r
    · have hmlen : ((l + r) / 2).toNat < seq.length := by omega
      simp only [binSearchGo, if_pos hlr, getD_map_zeroDefault seq _ hmlen,
        evalStart_zeroDefault, evalEnd_zeroDefault, evalCat_zeroDefault]
      rw [ih l ((l + r) / 2 - 1) h0 (by omega), ih ((l + r) / 2 + 1) r (by omega) hr]
    · simp only [binSearchGo, if_neg hlr]

theorem binSearch_map_zeroDefault (t : ℚ) (seq : List VisemeEvent) :
    binSearch t (seq.map zeroDefault) = binSearch t seq := by
  unfold binSearch
  rw [List.length_map]
  exact binSearchGo_map_zeroDefault t seq _ 0 _ (by omega) (by omega)

theorem getLastD_map_zeroDefault (l : List VisemeEvent) (h : l ≠ []) :
    (l.map zeroDefault).getLastD default = zeroDefault (l.getLastD default) := by
  rw [List.getLastD_eq_getLast?, List.getLastD_eq_getLast?, List.getLast?_map]
  cases h' : l.getLast? with
  | none => exact absurd (List.getLast?_eq_none_iff.mp h') h
  | some v => simp

theorem pastEndCheck_zeroDefault (t : ℚ) (v : VisemeEvent)
    (h : v.start ≠ none ∨ ∃ e, v.«end» = some e ∧ e ≠ 0) :
    pastEndCheck t (zeroDefault v) = pastEndCheck t v := by
  rcases h with hs | ⟨e, he, hne⟩
  · obtain ⟨s, hs⟩ := Option.ne_none_iff_exists'.mp hs
    cases hEnd : v.«end» with
    | none => simp [pastEndCheck, zeroDefault, hEnd, hs, evalDuration, evalCat]
    | some e =>
      by_cases he0 : e = 0 <;>
        simp [pastEndCheck, zeroDefault, hEnd, hs, he0, evalDuration, evalCat]
  · simp [pastEndCheck, zeroDefault, he, hne, evalCat]

/-- C8 (amended): `getVisemeAtTime` is total, returns 0 on the empty
sequence for every `t`, and on malformed events behaves as if missing
numeric fields were 0 — PROVIDED the last event has a present `start` or a
truthy `end`.  (When the last event's `start` is missing and its `end` is
absent or 0, the past-end fallback compares `t` against NaN and returns 0,
which can differ from the zero-defaulted lookup; see the counterexample.) -/
theorem lookup_zero_default_equiv (t : ℚ) (seq : List VisemeEvent)
    (hlast : seq = [] ∨ (seq.getLastD default).start ≠ none ∨
      ∃ e, (seq.getLastD default).«end» = some e ∧ e ≠ 0) :
    (getVisemeAtTime t ([] : List VisemeEvent) = 0) ∧
    getVisemeAtTime t (seq.map zeroDefault) = getVisemeAtTime t seq := by
  refine ⟨rfl, ?_⟩
  by_cases h0 : seq = []
  · subst h0
    rfl
  · have hlast' := hlast.resolve_left h0
    have hlen0 : seq.length ≠ 0 := by simpa [List.length_eq_zero] using h0
    unfold getVisemeAtTime
    rw [List.length_map, if_neg hlen0, if_neg hlen0,
      linScan_map_zeroDefault, binSearch_map_zeroDefault,
      getLastD_map_zeroDefault seq h0, pastEndCheck_zeroDefault t _ hlast']

/-- Counterexample for C8 as stated: a single event with a MISSING `start`
(`{viseme: 3, duration: 5}`) queried at `t = -1`.  The code's past-end
fallback computes `undefined + 5 = NaN` and returns silence 0, while the
zero-defaulted sequence returns category 3. -/
theorem lookup_missing_start_counterexample :
    getVisemeAtTime (-1) [⟨some 3, none, some 5, none⟩] = 0 ∧
    getVisemeAtTime (-1)
      (([⟨some 3, none, some 5, none⟩] : List VisemeEvent).map zeroDefault) = 3 := by
  constructor <;>
    norm_num [getVisemeAtTime, linScan, pastEndCheck, zeroDefault, evalStart,
      evalEnd, evalCat, evalDuration, List.getLastD]

/-- Witness for C8 at a concrete input: a well-formed single event, where
zero-defaulting is the identity on behaviour. -/
theorem lookup_zero_default_equiv_witness :
    ((([⟨some 2, some 0, some 1, none⟩] : List VisemeEvent) = []) ∨
      ((([⟨some 2, some 0, some 1, none⟩] : List VisemeEvent).getLastD default).start ≠ none) ∨
      ∃ e, ((([⟨some 2, some 0, some 1, none⟩] : List VisemeEvent).getLastD default).«end» = some e ∧ e ≠ 0)) ∧
    getVisemeAtTime 5 (([⟨some 2, some 0, some 1, none⟩] : List VisemeEvent).map zeroDefault)
      = getVisemeAtTime 5 [⟨some 2, some 0, some 1, none⟩] :=
  ⟨Or.inr (Or.inl (by simp [List.getLastD])),
   (lookup_zero_default_equiv 5 [⟨some 2, some 0, some 1, none⟩]
     (Or.inr (Or.inl (by simp [List.getLastD])))).2⟩

/-! ## C1: the animate loop against lookup + nearest-neighbor fallback -/

theorem evalEnd_of_none {v : VisemeEvent} (h : v.«end» = none) :
    evalEnd v = evalStart v + evalDuration v := by
  simp [evalEnd, h]

theorem animateScan_eq_linScan (t : ℚ) (l : List VisemeEvent)
    (h : ∀ v ∈ l, v.«end» = none) : animateScan t l = linScan t l := by
  induction l with
  | nil => rfl
  | cons v rest ih =>
    have hv := evalEnd_of_none (h v (List.mem_cons_self v rest))
    simp only [animateScan, linScan, hv]
    rw [ih (fun w hw => h w (List.mem_cons_of_mem v hw))]

theorem linScan_eq_none_iff {t : ℚ} {l : List VisemeEvent} :
    linScan t l = none ↔ ∀ v ∈ l, ¬(evalStart v ≤ t ∧ t < evalEnd v) := by
  induction l with
  | nil => simp [linScan]
  | cons v rest ih =>
    simp only [linScan]
    by_cases hv : evalStart v ≤ t ∧ t < evalEnd v
    · simp only [if_pos hv]
      constructor
      · intro h
        exact Option.noConfusion h
      · intro h
        exact absurd hv (h v (List.mem_cons_self v rest))
    · simp only [if_neg hv]
      rw [ih]
      constructor
      · intro h w hw
        rcases List.mem_cons.mp hw with rfl | hw'
        · exact hv
        · exact h w hw'
      · intro h w hw
        exact h w (List.mem_cons_of_mem v hw)

theorem foldl_min_le (t : ℚ) (l : List VisemeEvent) (acc : ℚ) :
    l.foldl (fun a v => min a |t - evalStart v|) acc ≤ acc := by
  induction l generalizing acc with
  | nil => exact le_refl _
  | cons v rest ih =>
    simp only [List.foldl_cons]
    exact le_trans (ih _) (min_le_left _ _)

theorem closestLoop_spec (t : ℚ) (l : List VisemeEvent) :
    ∀ (c : VisemeEvent) (m : ℚ), m = |t - evalStart c| →
      (closestLoop t c m l).2 = l.foldl (fun acc v => min acc |t - evalStart v|) m ∧
      (c :: l).find? (fun v => decide (|t - evalStart v| = (closestLoop t c m l).2))
        = some (closestLoop t c m l).1 := by
  induction l with
  | nil =>
    intro c m hm
    refine ⟨rfl, ?_⟩
    simp [closestLoop, List.find?, hm.symm]
  | cons v rest ih =>
    intro c m hm
    by_cases hd : |t - evalStart v| < m
    · have hrec := ih v |t - evalStart v| rfl
      have hloop : closestLoop t c m (v :: rest)
          = closestLoop t v |t - evalStart v| rest := by
        simp [closestLoop, hd]
      rw [hloop]
      refine ⟨?_, ?_⟩
      · rw [hrec.1, List.foldl_cons, min_eq_right (le_of_lt hd)]
      · have hne : ¬ (|t - evalStart c|
            = (closestLoop t v |t - evalStart v| rest).2) := by
          have hle : (closestLoop t v |t - evalStart v| rest).2
              ≤ |t - evalStart v| := by
            rw [hrec.1]
            exact foldl_min_le t rest _
          intro hcontra
          rw [← hm] at hcontra
          linarith
        rw [List.find?_cons_of_neg _ (by simpa using hne)]
        exact hrec.2
    · have hrec := ih c m hm
      have hloop : closestLoop t c m (v :: rest) = closestLoop t c m rest := by
        simp [closestLoop, hd]
      rw [hloop]
      have hle2 : (closestLoop t c m rest).2 ≤ m := by
        rw [hrec.1]
        exact foldl_min_le t rest _
      refine ⟨?_, ?_⟩
      · rw [hrec.1, List.foldl_cons, min_eq_left (le_of_not_lt hd)]
      · by_cases hc : |t - evalStart c| = (closestLoop t c m rest).2
        · rw [List.find?_cons_of_pos _ (by simpa using hc)]
          rw [List.find?_cons_of_pos _ (by simpa using hc)] at hrec
          exact hrec.2
        · have hnv : ¬ (|t - evalStart v| = (closestLoop t c m rest).2) := by
            intro hv
            have hmd : m ≤ |t - evalStart v| := le_of_not_lt hd
            have : m = (closestLoop t c m rest).2 := le_antisymm (by linarith) hle2
            exact hc (hm ▸ this)
          rw [List.find?_cons_of_neg _ (by simpa using hc),
            List.find?_cons_of_neg _ (by simpa using hnv)]
          rw [List.find?_cons_of_neg _ (by simpa using hc)] at hrec
          exact hrec.2

/-- C1 (amended): for sequences of fewer than 50 events whose events carry
no explicit `end` field, the category published by one `animate` tick equals
`getVisemeAtTime` extended with the nearest-neighbor fallback (closest
start within 0.2 s when no interval contains `t`, else silence).  With an
explicit `end` field, or with 50 or more events, the loop's own linear
containment scan can disagree with `getVisemeAtTime` (see the
counterexample). -/
theorem animateViseme_refines_lookup (t : ℚ) (seq : List VisemeEvent)
    (hlen : seq.length < 50) (hnoend : ∀ v ∈ seq, v.«end» = none) :
    animateViseme t seq = specLoopViseme t seq := by
  unfold animateViseme specLoopViseme
  rw [animateScan_eq_linScan t seq hnoend]
  cases hscan : linScan t seq with
  | some c =>
    have hex : ¬ ∀ v ∈ seq, ¬(evalStart v ≤ t ∧ t < evalEnd v) := by
      intro hall
      rw [linScan_eq_none_iff.mpr hall] at hscan
      exact Option.noConfusion hscan
    push_neg at hex
    obtain ⟨v, hv, hp⟩ := hex
    have hany : seq.any (fun v => decide (evalStart v ≤ t ∧ t < evalEnd v)) = true := by
      rw [List.any_eq_true]
      exact ⟨v, hv, by simpa using hp⟩
    rw [if_pos hany]
    have hlen0 : seq.length ≠ 0 := by
      intro h
      rw [List.length_eq_zero] at h
      subst h
      exact Option.noConfusion hscan
    unfold getVisemeAtTime
    rw [if_neg hlen0, if_pos hlen, hscan]
  | none =>
    have hall : ∀ v ∈ seq, ¬(evalStart v ≤ t ∧ t < evalEnd v) :=
      linScan_eq_none_iff.mp hscan
    have hany : seq.any (fun v => decide (evalStart v ≤ t ∧ t < evalEnd v)) = false := by
      rw [List.any_eq_false]
      intro v hv
      simpa using hall v hv
    have hnot : ¬ ((seq.any fun v => decide (evalStart v ≤ t ∧ t < evalEnd v)) = true) := by
      rw [hany]
      exact Bool.false_ne_true
    rw [if_neg hnot]
    unfold specNearestCat
    cases seq with
    | nil => rfl
    | cons v0 rest =>
      have hcl := closestLoop_spec t rest v0 |t - evalStart v0| rfl
      rcases hP : closestLoop t v0 |t - evalStart v0| rest with ⟨cv, md⟩
      rw [hP] at hcl
      simp only at hcl
      simp only [hP]
      rw [← hcl.1, hcl.2]

/-- Counterexample for C1 as stated: a one-event sequence carrying an
explicit `end` field `1/2` alongside `duration 1`, queried at `t = 7/10`.
The loop's scan ignores `end` and publishes category 3; `getVisemeAtTime`
honours `end`, finds no containing interval, and the claimed
nearest-neighbor extension yields silence 0 (distance 7/10 ≥ 0.2). -/
theorem animate_end_field_counterexample :
    animateViseme (7/10) [⟨some 3, some 0, some 1, some (1/2)⟩] = 3 ∧
    specLoopViseme (7/10) [⟨some 3, some 0, some 1, some (1/2)⟩] = 0 := by
  constructor
  · norm_num [animateViseme, animateScan, evalStart, evalDuration, evalCat]
  · norm_num [specLoopViseme, specNearestCat, evalStart, evalEnd, evalCat,
      getVisemeAtTime, linScan, pastEndCheck, closestLoop, abs_of_nonneg]

/-- Witness for C1 at a concrete input: the spec's end-to-end scenario
sequence (categories 1 then 5, each 0.5 s), sampled at `t = 3/10`. -/
theorem animateViseme_refines_lookup_witness :
    (([⟨some 1, some 0, some (1/2), none⟩, ⟨some 5, some (1/2), some (1/2), none⟩]
        : List VisemeEvent).length < 50) ∧
    (∀ v ∈ ([⟨some 1, some 0, some (1/2), none⟩, ⟨some 5, some (1/2), some (1/2), none⟩]
        : List VisemeEvent), v.«end» = none) ∧
    animateViseme (3/10)
        [⟨some 1, some 0, some (1/2), none⟩, ⟨some 5, some (1/2), some (1/2), none⟩]
      = specLoopViseme (3/10)
        [⟨some 1, some 0, some (1/2), none⟩, ⟨some 5, some (1/2), some (1/2), none⟩] :=
  ⟨by norm_num, by simp [List.forall_mem_cons],
   animateViseme_refines_lookup (3/10)
     [⟨some 1, some 0, some (1/2), none⟩, ⟨some 5, some (1/2), some (1/2), none⟩]
     (by norm_num) (by simp [List.forall_mem_cons])⟩

/-! ## C2: linear and binary lookup on sorted, non-overlapping sequences -/

theorem getD_mem (seq : List VisemeEvent) (i : ℕ) (h : i < seq.length) :
    seq.getD i default ∈ seq := by
  rw [getD_eq_of_lt seq i h]
  exact List.getElem_mem h

/-- In a sequence whose adjacent events satisfy `end i ≤ start (i+1)` and
whose events satisfy `start ≤ end`, every earlier event ends no later than a
later event starts. -/
theorem chain_end_le_start (seq : List VisemeEvent)
    (hend : ∀ v ∈ seq, evalStart v ≤ evalEnd v)
    (hsep : ∀ i, i + 1 < seq.length →
      evalEnd (seq.getD i default) ≤ evalStart (seq.getD (i+1) default)) :
    ∀ i k, i < k → k < seq.length →
      evalEnd (seq.getD i default) ≤ evalStart (seq.getD k default) := by
  intro i k hik hk
  have key : ∀ n k, k = i + 1 + n → k < seq.length →
      evalEnd (seq.getD i default) ≤ evalStart (seq.getD k default) := by
    intro n
    induction n with
    | zero =>
      intro k hk hklen
      subst hk
      exact hsep i (by omega)
    | succ m ihm =>
      intro k hk hklen
      subst hk
      have h1 := ihm (i + 1 + m) rfl (by omega)
      have h2 : evalStart (seq.getD (i + 1 + m) default)
          ≤ evalEnd (seq.getD (i + 1 + m) default) :=
        hend _ (getD_mem seq _ (by omega))
      have h3 := hsep (i + 1 + m) (by omega)
      have h4 : i + 1 + (m + 1) = (i + 1 + m) + 1 := by omega
      rw [h4]
      linarith
  exact key (k - (i + 1)) k (by omega) hk

/-- With `start ≤ end` and non-overlap, at most one interval contains `t`. -/
theorem containment_unique (t : ℚ) (seq : List VisemeEvent)
    (hend : ∀ v ∈ seq, evalStart v ≤ evalEnd v)
    (hsep : ∀ i, i + 1 < seq.length →
      evalEnd (seq.getD i default) ≤ evalStart (seq.getD (i+1) default))
    (i j : ℕ) (hi : i < seq.length) (hj : j < seq.length)
    (hci : evalStart (seq.getD i default) ≤ t ∧ t < evalEnd (seq.getD i default))
    (hcj : evalStart (seq.getD j default) ≤ t ∧ t < evalEnd (seq.getD j default)) :
    i = j := by
  by_contra hne
  rcases lt_or_gt_of_ne hne with h | h
  · have := chain_end_le_start seq hend hsep i j h hj
    linarith [hci.2, hcj.1]
  · have := chain_end_le_start seq hend hsep j i h hi
    linarith [hcj.2, hci.1]

theorem linScan_finds (t : ℚ) :
    ∀ (seq : List VisemeEvent) (j : ℕ), j < seq.length →
      (evalStart (seq.getD j default) ≤ t ∧ t < evalEnd (seq.getD j default)) →
      (∀ i, i < j → ¬(evalStart (seq.getD i default) ≤ t ∧
        t < evalEnd (seq.getD i default))) →
      linScan t seq = some (evalCat (seq.getD j default)) := by
  intro seq
  induction seq with
  | nil =>
    intro j hj
    exact absurd hj (by simp)
  | cons v rest ih =>
    intro j hj hcj hprev
    cases j with
    | zero =>
      rw [show (v :: rest).getD 0 default = v from rfl] at hcj ⊢
      simp only [linScan]
      rw [if_pos hcj]
    | succ k =>
      have hv : ¬(evalStart v ≤ t ∧ t < evalEnd v) := by
        have h := hprev 0 (Nat.succ_pos k)
        rwa [show (v :: rest).getD 0 default = v from rfl] at h
      rw [show (v :: rest).getD (k + 1) default = rest.getD k default from rfl] at hcj ⊢
      simp only [linScan]
      rw [if_neg hv]
      refine ih k (by simpa using hj) hcj ?_
      intro i hik
      have h := hprev (i + 1) (by omega)
      rwa [show (v :: rest).getD (i + 1) default = rest.getD i default from rfl] at h

theorem binSearchGo_finds (t : ℚ) (seq : List VisemeEvent) (j : ℕ)
    (hj : j < seq.length)
    (hend : ∀ v ∈ seq, evalStart v ≤ evalEnd v)
    (hsep : ∀ i, i + 1 < seq.length →
      evalEnd (seq.getD i default) ≤ evalStart (seq.getD (i+1) default))
    (hcj : evalStart (seq.getD j default) ≤ t ∧ t < evalEnd (seq.getD j default)) :
    ∀ (fuel : ℕ) (left right : ℤ), 0 ≤ left → left ≤ (j:ℤ) → (j:ℤ) ≤ right →
      right < (seq.length : ℤ) → (right - left).toNat < fuel →
      binSearchGo t seq fuel left right = some (evalCat (seq.getD j default)) := by
  intro fuel
  induction fuel with
  | zero =>
    intro l r _ hlj hjr _ hf
    exact absurd hf (by omega)
  | succ n ih =>
    intro l r h0 hlj hjr hrlen hf
    have hlr : l ≤ r := le_trans hlj hjr
    simp only [binSearchGo]
    rw [if_pos hlr]
    have hmb : l ≤ (l + r) / 2 ∧ (l + r) / 2 ≤ r := by omega
    have hmlen : ((l + r) / 2).toNat < seq.length := by omega
    by_cases hc : evalStart (seq.getD ((l + r) / 2).toNat default) ≤ t ∧
        t < evalEnd (seq.getD ((l + r) / 2).toNat default)
    · rw [if_pos hc]
      have heq : ((l + r) / 2).toNat = j :=
        containment_unique t seq hend hsep _ j hmlen hj hc hcj
      rw [heq]
    · rw [if_neg hc]
      by_cases hlt : t < evalStart (seq.getD ((l + r) / 2).toNat default)
      · rw [if_pos hlt]
        have hjm : j < ((l + r) / 2).toNat := by
          by_contra hge
          push_neg at hge
          rcases Nat.eq_or_lt_of_le hge with heq | hlt2
          · exact hc (heq ▸ hcj)
          · have h1 := chain_end_le_start seq hend hsep _ j hlt2 hj
            have h2 : evalStart (seq.getD (((l + r) / 2).toNat) default)
                ≤ evalEnd (seq.getD (((l + r) / 2).toNat) default) :=
              hend _ (getD_mem seq _ hmlen)
            linarith [hcj.1]
        exact ih l ((l + r) / 2 - 1) h0 hlj (by omega) (by omega) (by omega)
      · rw [if_neg hlt]
        push_neg at hlt
        have hge : evalEnd (seq.getD ((l + r) / 2).toNat default) ≤ t := by
          by_contra h
          push_neg at h
          exact hc ⟨hlt, h⟩
        have hjm : ((l + r) / 2).toNat < j := by
          by_contra hge2
          push_neg at hge2
          rcases Nat.eq_or_lt_of_le hge2 with heq | hlt2
          · exact hc (heq ▸ hcj)
          · have h1 := chain_end_le_start seq hend hsep j _ hlt2 hmlen
            linarith [hcj.2]
        exact ih ((l + r) / 2 + 1) r (by omega) (by omega) hjr hrlen (by omega)

/-- C2 (amended): on a non-empty sequence that is sorted, NON-OVERLAPPING
(each event ends no later than the next starts) and has well-formed
intervals (`start ≤ end`), a query time inside some event's interval makes
the linear scan, the binary search, and `getVisemeAtTime` itself all return
that event's category — in particular the two strategies agree.  Without
the non-overlap condition (which the claim omits) sortedness alone is not
enough: see the counterexample. -/
theorem lookup_sorted_nonoverlapping_correct (t : ℚ) (seq : List VisemeEvent) (j : ℕ)
    (hj : j < seq.length)
    (hend : ∀ v ∈ seq, evalStart v ≤ evalEnd v)
    (hsep : ∀ i, i + 1 < seq.length →
      evalEnd (seq.getD i default) ≤ evalStart (seq.getD (i+1) default))
    (hcont : evalStart (seq.getD j default) ≤ t ∧ t < evalEnd (seq.getD j default)) :
    linScan t seq = some (evalCat (seq.getD j default)) ∧
    binSearch t seq = some (evalCat (seq.getD j default)) ∧
    getVisemeAtTime t seq = evalCat (seq.getD j default) := by
  have hlin : linScan t seq = some (evalCat (seq.getD j default)) := by
    apply linScan_finds t seq j hj hcont
    intro i hij hci
    exact absurd (containment_unique t seq hend hsep i j (by omega) hj hci hcont)
      (by omega)
  have hbin : binSearch t seq = some (evalCat (seq.getD j default)) := by
    unfold binSearch
    exact binSearchGo_finds t seq j hj hend hsep hcont _ 0 _ (by omega) (by omega)
      (by omega) (by omega) (by omega)
  refine ⟨hlin, hbin, ?_⟩
  have hlen0 : seq.length ≠ 0 := by omega
  unfold getVisemeAtTime
  rw [if_neg hlen0]
  by_cases h50 : seq.length < 50
  · rw [if_pos h50, hlin]
  · rw [if_neg h50, hbin]

/-- Witness for C2 at a concrete input: a one-event sequence (all pair
conditions vacuous), queried inside the interval. -/
theorem lookup_sorted_nonoverlapping_correct_witness :
    ((0:ℕ) < ([⟨some 4, some 0, some 2, none⟩] : List VisemeEvent).length) ∧
    linScan 1 [⟨some 4, some 0, some 2, none⟩] = some 4 ∧
    binSearch 1 [⟨some 4, some 0, some 2, none⟩] = some 4 ∧
    getVisemeAtTime 1 [⟨some 4, some 0, some 2, none⟩] = 4 := by
  have T := lookup_sorted_nonoverlapping_correct 1 [⟨some 4, some 0, some 2, none⟩] 0
    (by simp)
    (by intro v hv; rcases List.mem_singleton.mp hv with rfl;
        norm_num [evalStart, evalEnd, evalDuration])
    (by intro i hi; simp at hi)
    (by norm_num [evalStart, evalEnd, evalDuration, List.getD])
  refine ⟨by simp, ?_, ?_, ?_⟩
  · rw [T.1]
    norm_num [evalCat, List.getD]
  · rw [T.2.1]
    norm_num [evalCat, List.getD]
  · rw [T.2.2]
    norm_num [evalCat, List.getD]

set_option maxHeartbeats 1000000 in
/-- Counterexample for C2 as stated: `overlapSeq` is non-empty, sorted by
non-decreasing start, `t = 51` lies in `[first.start, last.end) = [0, 99)`,
and exactly one interval (the first event, category 1) contains `t` — yet
the linear scan returns category 1 while the binary search finds nothing,
and `getVisemeAtTime` (which takes the binary branch at 50 events) falls
back to the last event's category 2. -/
theorem lookup_overlap_counterexample :
    overlapSeq.length = 50 ∧
    (∀ i, i + 1 < 50 → evalStart (overlapSeq.getD i default)
      ≤ evalStart (overlapSeq.getD (i+1) default)) ∧
    (∀ i, i < 50 → ((evalStart (overlapSeq.getD i default) ≤ 51 ∧
      (51:ℚ) < evalEnd (overlapSeq.getD i default)) ↔ i = 0)) ∧
    evalCat (overlapSeq.getD 0 default) = 1 ∧
    (51:ℚ) < evalEnd (overlapSeq.getD 49 default) ∧
    linScan 51 overlapSeq = some 1 ∧
    binSearch 51 overlapSeq = none ∧
    getVisemeAtTime 51 overlapSeq = 2 ∧ (2:ℚ) ≠ 1 := by
  have hb : binSearch 51 overlapSeq = none := by
    have hlen : overlapSeq.length = 50 := rfl
    rw [binSearch, hlen]
    norm_num
    have s1 : binSearchGo 51 overlapSeq 51 0 49 = binSearchGo 51 overlapSeq 50 25 49 := by
      conv_lhs => rw [binSearchGo]
      simp only []
      rw [if_pos (by norm_num : (0:ℤ) ≤ 49)]
      rw [show overlapSeq.getD (((0:ℤ) + 49) / 2).toNat default
        = ⟨some 2, some 48, some 1, none⟩ from rfl]
      rw [if_neg (by norm_num [evalStart, evalEnd, evalCat, evalDuration])]
      rw [if_neg (by norm_num [evalStart])]
      norm_num
    have s2 : binSearchGo 51 overlapSeq 50 25 49 = binSearchGo 51 overlapSeq 49 25 36 := by
      conv_lhs => rw [binSearchGo]
      simp only []
      rw [if_pos (by norm_num : (25:ℤ) ≤ 49)]
      rw [show overlapSeq.getD (((25:ℤ) + 49) / 2).toNat default
        = ⟨some 2, some 74, some 1, none⟩ from rfl]
      rw [if_neg (by norm_num [evalStart, evalEnd, evalCat, evalDuration])]
      rw [if_pos (by norm_num [evalStart])]
      norm_num
    have s3 : binSearchGo 51 overlapSeq 49 25 36 = binSearchGo 51 overlapSeq 48 25 29 := by
      conv_lhs => rw [binSearchGo]
      simp only []
      rw [if_pos (by norm_num : (25:ℤ) ≤ 36)]
      rw [show overlapSeq.getD (((25:ℤ) + 36) / 2).toNat default
        = ⟨some 2, some 60, some 1, none⟩ from rfl]
      rw [if_neg (by norm_num [evalStart, evalEnd, evalCat, evalDuration])]
      rw [if_pos (by norm_num [evalStart])]
      norm_num
    have s4 : binSearchGo 51 overlapSeq 48 25 29 = binSearchGo 51 overlapSeq 47 25 26 := by
      conv_lhs => rw [binSearchGo]
      simp only []
      rw [if_pos (by norm_num : (25:ℤ) ≤ 29)]
      rw [show overlapSeq.getD (((25:ℤ) + 29) / 2).toNat default
        = ⟨some 2, some 54, some 1, none⟩ from rfl]
      rw [if_neg (by norm_num [evalStart, evalEnd, evalCat, evalDuration])]
      rw [if_pos (by norm_num [evalStart])]
      norm_num
    have s5 : binSearchGo 51 overlapSeq 47 25 26 = binSearchGo 51 overlapSeq 46 26 26 := by
      conv_lhs => rw [binSearchGo]
      simp only []
      rw [if_pos (by norm_num : (25:ℤ) ≤ 26)]
      rw [show overlapSeq.getD (((25:ℤ) + 26) / 2).toNat default
        = ⟨some 2, some 50, some 1, none⟩ from rfl]
      rw [if_neg (by norm_num [evalStart, evalEnd, evalCat, evalDuration])]
      rw [if_neg (by norm_num [evalStart])]
      norm_num
    have s6 : binSearchGo 51 overlapSeq 46 26 26 = binSearchGo 51 overlapSeq 45 26 25 := by
      conv_lhs => rw [binSearchGo]
      simp only []
      rw [if_pos (by norm_num : (26:ℤ) ≤ 26)]
      rw [show overlapSeq.getD (((26:ℤ) + 26) / 2).toNat default
        = ⟨some 2, some 52, some 1, none⟩ from rfl]
      rw [if_neg (by norm_num [evalStart, evalEnd, evalCat, evalDuration])]
      rw [if_pos (by norm_num [evalStart])]
      norm_num
    have s7 : binSearchGo 51 overlapSeq 45 26 25 = none := by
      conv_lhs => rw [binSearchGo]
      simp only []
      rw [if_neg (by norm_num : ¬((26:ℤ) ≤ 25))]
    rw [s1, s2, s3, s4, s5, s6, s7]
  refine ⟨rfl, ?_, ?_,
    by rw [show overlapSeq.getD 0 default
        = (⟨some 1, some 0, some 100, none⟩ : VisemeEvent) from rfl]; norm_num [evalCat],
    ?_, ?_, hb, ?_, by norm_num⟩
  · intro i hi
    have hi2 : i < 49 := by omega
    interval_cases i <;> norm_num [overlapSeq, evalStart]
  · intro i hi
    interval_cases i <;> norm_num [overlapSeq, evalStart, evalEnd, evalDuration]
  · rw [show overlapSeq.getD 49 default
      = (⟨some 2, some 98, some 1, none⟩ : VisemeEvent) from rfl]
    norm_num [evalEnd, evalStart, evalDuration]
  · unfold overlapSeq
    rw [linScan]
    rw [if_pos (by norm_num [evalStart, evalEnd, evalDuration])]
    norm_num [evalCat]
  · unfold getVisemeAtTime
    simp only []
    rw [show overlapSeq.length = 50 from rfl]
    rw [if_neg (by norm_num : ¬(50 = 0)), if_neg (by norm_num : ¬(50 < 50)), hb]
    rw [show overlapSeq.getLastD default = ⟨some 2, some 98, some 1, none⟩ from rfl]
    norm_num [pastEndCheck, evalCat, evalDuration]

end AvatarTalk
